import Mathlib

/-!
Shallow embedding of the reconnecting-client core of baetyl-go
(`src/mqtt/client.go`, `src/link/client.go`), together with theorems
checking the design document against it.

Conventions of the embedding:
* Go `select` over several communication cases is modelled by building the
  list of cases that are ready and letting an arbitrary natural number
  `choice` pick one of them (Go chooses uniformly at random among the ready
  cases); an empty ready list means the `select` blocks, modelled as `none`.
* A buffered Go channel is modelled as a FIFO `List` with a capacity field;
  a send is ready exactly when the buffer holds fewer elements than the
  capacity.
* `tomb.Dying()` is ready exactly when the tomb has been killed, modelled by
  the boolean field `dying` (set by `Close`).
* Durations are rational numbers measured in seconds; `time.Second = 1`.
* Go errors are opaque values: `Option GoErr` is `nil` / non-`nil`.
-/

/-- Opaque Go error values (only identity and nil-ness matter here). -/
abbrev GoErr := ℕ

/-- Client configuration. The struct `ClientConfig` itself is not part of the
sources (only its uses are); its fields are taken from the uses in
`src/mqtt/client.go` / `src/link/client.go` (`Interval`, `BufferSize` /
`MaxCacheMessages`, `Address`, credentials), extended with the backoff
minimum and factor fields that the design document §6 claims are recognized
options, so that the claim about them can be stated.  `interval` is the
configured maximum backoff delay in seconds; `bufferSize` is the outbound
queue capacity (`BufferSize` in mqtt, `MaxCacheMessages` in link). -/
structure ClientConfig where
  address : String
  bufferSize : ℕ
  interval : ℚ
  backoffMin : ℚ
  backoffFactor : ℚ
deriving DecidableEq, Repr

/-- The part of a `Client`'s state relevant to the outbound queue:
the buffered channel `cache` (FIFO list plus fixed capacity) and whether
the tomb is dying (`Close` was called).  Messages are an arbitrary type `α`
(`Packet` in mqtt, `*Message` in link); their contents are irrelevant to the
queueing behaviour. -/
structure ClientState (α : Type) where
  queue : List α
  cap : ℕ
  dying : Bool
deriving DecidableEq, Repr

/-- Result of `Client.Send` (`src/mqtt/client.go` lines 71-78,
`src/link/client.go` lines 61-68): `ok` is a nil error return after the
message went into the cache channel, `closedErr` is `ErrClientAlreadyClosed`. -/
inductive SendResult where
  | ok
  | closedErr
deriving DecidableEq, Repr

/-- Result of `Client.SendContext` (`src/link/client.go` lines 71-80):
additionally `ctxErr` is `ctx.Err()` from the `<-ctx.Done()` case. -/
inductive SendCtxResult where
  | ok
  | ctxErr
  | closedErr
deriving DecidableEq, Repr

/-- Go `select`: pick one of the ready cases (Go picks uniformly at random;
the `choice` argument resolves that nondeterminism).  An empty list of ready
cases blocks, i.e. returns `none`. -/
def goSelect {β : Type} (ready : List β) (choice : ℕ) : Option β :=
  ready.get? (choice % ready.length)

/-- `Client.Send` (`src/mqtt/client.go` lines 71-78 and `src/link/client.go`
lines 61-68):
`select { case c.cache <- pkt: return nil
          case <-c.tomb.Dying(): return ErrClientAlreadyClosed }`.
The cache case is ready when the buffer has spare capacity, the dying case
when the tomb is dying; `goSelect` chooses among the ready cases. -/
def clientSend {α : Type} (s : ClientState α) (m : α) (choice : ℕ) :
    Option (SendResult × ClientState α) :=
  goSelect
    ((if s.queue.length < s.cap then
        [(SendResult.ok, { s with queue := s.queue ++ [m] })] else [])
      ++ (if s.dying then [(SendResult.closedErr, s)] else []))
    choice

/-- `Client.SendContext` (`src/link/client.go` lines 71-80):
`select { case c.cache <- msg:
          case <-ctx.Done(): return ctx.Err()
          case <-c.tomb.Dying(): return ErrClientAlreadyClosed }`.
`ctxDone` tells whether the context is already cancelled or expired. -/
def clientSendContext {α : Type} (s : ClientState α) (m : α) (ctxDone : Bool)
    (choice : ℕ) : Option (SendCtxResult × ClientState α) :=
  goSelect
    ((if s.queue.length < s.cap then
        [(SendCtxResult.ok, { s with queue := s.queue ++ [m] })] else [])
      ++ (if ctxDone then [(SendCtxResult.ctxErr, s)] else [])
      ++ (if s.dying then [(SendCtxResult.closedErr, s)] else []))
    choice

/-- `NewClient` (`src/mqtt/client.go` lines 34-41, `src/link/client.go`
lines 38-45): `cache: make(chan Packet, cc.BufferSize)` — an empty queue
whose capacity is fixed from the configuration, tomb alive. -/
def newClient (α : Type) (cc : ClientConfig) : ClientState α :=
  { queue := [], cap := cc.bufferSize, dying := false }

/-- The operations that touch a client's queue state over its lifetime:
producer `send` / `sendCtx` calls (with the select nondeterminism resolved
by `choice`), the session's receive from the cache channel in
`stream.sending` (`deq`), and `Close`'s `tomb.Kill` (`close`). -/
inductive ClientOp (α : Type) where
  | send (m : α) (choice : ℕ)
  | sendCtx (m : α) (ctxDone : Bool) (choice : ℕ)
  | deq
  | close
deriving Repr

/-- One step of the client's lifetime.  A blocked producer (the select
returned `none`) leaves the state unchanged. -/
def clientStep {α : Type} (s : ClientState α) : ClientOp α → ClientState α
  | ClientOp.send m choice =>
      match clientSend s m choice with
      | some (_, s') => s'
      | none => s
  | ClientOp.sendCtx m ctxDone choice =>
      match clientSendContext s m ctxDone choice with
      | some (_, s') => s'
      | none => s
  | ClientOp.deq => { s with queue := s.queue.tail }
  | ClientOp.close => { s with dying := true }

/-- Run a client from construction through a sequence of operations. -/
def clientRun {α : Type} (cc : ClientConfig) (ops : List (ClientOp α)) :
    ClientState α :=
  ops.foldl clientStep (newClient α cc)

/-- Backoff state, as in the `backoff.Backoff` value built by
`Client.connecting` (`src/mqtt/client.go` lines 99-103, `src/link/client.go`
lines 103-107): minimum and maximum delay, growth factor and the attempt
counter.  Durations are rationals in seconds. -/
structure Backoff where
  min : ℚ
  max : ℚ
  factor : ℚ
  attempt : ℕ
deriving DecidableEq, Repr

/-- Modelled from the spec: the delay produced by the vendored
`github.com/jpillora/backoff` library for a given attempt (the library is a
dependency, not part of the sources).  Design document §3: the next delay is
`min(maximum, minimum × factor^attempt)`; the library additionally
substitutes defaults for non-positive minimum (100ms), maximum (10s) and
factor (2), returns the maximum outright when minimum ≥ maximum, and clamps
the result into `[minimum, maximum]` (jitter is off in this repository). -/
def Backoff.forAttempt (b : Backoff) (n : ℕ) : ℚ :=
  let mn := if b.min ≤ 0 then 1 / 10 else b.min
  let mx := if b.max ≤ 0 then 10 else b.max
  if mx ≤ mn then mx
  else
    let f := if b.factor ≤ 0 then 2 else b.factor
    let durf := mn * f ^ n
    if durf < mn then mn else if mx < durf then mx else durf

/-- `bf.Duration()`: return the delay for the current attempt and increment
the attempt counter. -/
def Backoff.duration (b : Backoff) : ℚ × Backoff :=
  (b.forAttempt b.attempt, { b with attempt := b.attempt + 1 })

/-- `bf.Reset()`: reset the attempt counter to zero. -/
def Backoff.reset (b : Backoff) : Backoff :=
  { b with attempt := 0 }

/-- The backoff value the supervisor builds (`src/mqtt/client.go` lines
99-103 and identically `src/link/client.go` lines 103-107):
`backoff.Backoff{ Min: time.Second, Max: c.cfg.Interval, Factor: 1.6 }` —
the minimum is the constant one second and the factor the constant 1.6;
only the maximum comes from the configuration. -/
def mkSupervisorBackoff (cc : ClientConfig) : Backoff :=
  { min := 1, max := cc.interval, factor := 8 / 5, attempt := 0 }

/-- The successive delays the supervisor draws from a backoff state while
connect attempts keep failing: each loop iteration calls `bf.Duration()`
(`src/mqtt/client.go` line 122, `src/link/client.go` line 126). -/
def backoffDelays (b : Backoff) : ℕ → List ℚ
  | 0 => []
  | k + 1 =>
      let p := b.duration
      p.1 :: backoffDelays p.2 k

/-- Round a rational to two decimal places (for the "seconds, rounded"
figures of the design document's scenario). -/
def round2 (q : ℚ) : ℚ := (round (100 * q) : ℤ) / 100

/-- Outcome of one `c.connect()` call in the supervisor loop. -/
inductive ConnectOutcome where
  | failure (e : GoErr)
  | success
deriving DecidableEq, Repr

/-- Effect of one supervisor iteration on the backoff attempt counter
(`src/mqtt/client.go` lines 105-131, `src/link/client.go` lines 109-135):
every iteration calls `bf.Duration()` — incrementing the counter — before
`c.connect()`; a successful connect then calls `bf.Reset()`, a failed one
leaves the counter as incremented. -/
def attemptStep (a : ℕ) : ConnectOutcome → ℕ
  | ConnectOutcome.failure _ => a + 1
  | ConnectOutcome.success => 0

/-- The attempt counter after a sequence of connect outcomes, starting from
the fresh backoff state (attempt 0). -/
def attemptAfter (t : List ConnectOutcome) : ℕ :=
  t.foldl attemptStep 0

/-- Modelled from the spec: the session send loop `stream.sending(curr)`
(the `stream` type is not among the sources; only its caller
`Client.connecting` is — `src/mqtt/client.go` line 130, `src/link/client.go`
line 134).  Design document §4.3: the send loop "pulls the next message —
first the carried-over in-flight message if one exists, otherwise the queue
head".  `nextMsg` performs that pull, returning the message together with
the queue that remains. -/
def nextMsg {α : Type} : Option α → List α → Option (α × List α)
  | some m, q => some (m, q)
  | none, m :: q => some (m, q)
  | none, [] => none

/-- Modelled from the spec: the session send loop (design document §4.3).
It repeatedly pulls the next message with `nextMsg`, writes it to the
transport and clears "current" when the write completes; "a write failure
surfaces the error and terminates both loops without clearing current".
`okWrites` is how many writes the transport completes before it fails
(resolving the I/O nondeterminism).  The result is the list of messages
delivered to the wire in order, the in-flight message at the moment the
session died (`none` when the loop stopped without a failed write), and the
remaining queue.  A session whose queue runs dry is modelled as ending with
no in-flight message. -/
def sendLoop {α : Type} : ℕ → Option α → List α → List α × Option α × List α
  | 0, curr, queue =>
      match nextMsg curr queue with
      | none => ([], none, [])
      | some (m, q) => ([], some m, q)
  | k + 1, curr, queue =>
      match nextMsg curr queue with
      | none => ([], none, [])
      | some (m, q) =>
          let r := sendLoop k none q
          (m :: r.1, r.2)

/-- Whether `Client.onError` (`src/mqtt/client.go` lines 168-174) /
`Client.onErr` (`src/link/client.go` lines 152-158) invokes the Observer's
`OnError` callback: `if c.obs == nil || err == nil { return }` guards the
invocation.  `obsPresent` is `c.obs != nil`. -/
def onErrorInvokes (obsPresent : Bool) (err : Option GoErr) : Bool :=
  if obsPresent = false ∨ err = none then false else true

/-- Status of the supervisor loop after processing a finite schedule. -/
inductive LoopStatus where
  | running
  | stopped
deriving DecidableEq, Repr

/-- The supervisor loop `Client.connecting` (`src/mqtt/client.go` lines
105-131, `src/link/client.go` lines 109-135), driven by a finite schedule:
each entry gives whether the tomb is dying when the loop reaches its
`select` (the stop signal) and, if not stopped there, the outcome of
`c.connect()`.  The loop returns only through the `<-c.tomb.Dying()` case;
a failed connect reports through `onError` and `continue`s; a successful
connect resets the backoff and runs the session, then iterates again.
The result is the loop status once the schedule is exhausted together with
the per-failure record of whether the Observer was notified. -/
def connectingLoop (obsPresent : Bool) :
    List (Bool × ConnectOutcome) → LoopStatus × List Bool
  | [] => (LoopStatus.running, [])
  | (stop, oc) :: rest =>
      if stop then (LoopStatus.stopped, [])
      else
        match oc with
        | ConnectOutcome.failure e =>
            let r := connectingLoop obsPresent rest
            (r.1, onErrorInvokes obsPresent (some e) :: r.2)
        | ConnectOutcome.success => connectingLoop obsPresent rest

/-- An MQTT publish packet as filled in by `Client.Publish`
(`src/mqtt/client.go` lines 56-68); field names follow the Go packet.
The payload is a byte list, the ID a natural number (packet IDs). -/
structure PublishPkt where
  id : ℕ
  dup : Bool
  qos : ℕ
  topic : String
  payload : List ℕ
  retain : Bool
deriving DecidableEq, Repr

/-- Modelled from the spec: `Counter.NextID` on the client's `ids` counter
(the `Counter` type is not among the sources; design document §3 calls it
"typically a monotonic counter").  The state is the last issued ID; `NextID`
issues the next one and returns it together with the new state. -/
def nextID (c : ℕ) : ℕ × ℕ :=
  (c + 1, c + 1)

/-- `Client.Publish` (`src/mqtt/client.go` lines 56-68): build the publish
packet from the arguments, then `if qos != 0 && pid == 0` replace its ID
with a fresh one from the client's counter.  Returns the packet handed to
`Send` and the counter afterwards. -/
def clientPublish (qos : ℕ) (topic : String) (payload : List ℕ) (pid : ℕ)
    (retain : Bool) (dup : Bool) (ids : ℕ) : PublishPkt × ℕ :=
  let p : PublishPkt :=
    { id := pid, dup := dup, qos := qos, topic := topic,
      payload := payload, retain := retain }
  if qos ≠ 0 ∧ pid = 0 then
    let fresh := nextID ids
    ({ p with id := fresh.1 }, fresh.2)
  else
    (p, ids)

/-- An MQTT puback packet (only its identity matters here). -/
structure PubackPkt where
  id : ℕ
deriving DecidableEq, Repr

/-- The mqtt Observer interface (`OnPublish`, `OnPuback`, `OnError`); the
callbacks may return errors, modelled as `Option GoErr`. -/
structure MqttObserver where
  onPublishCb : PublishPkt → Option GoErr
  onPubackCb : PubackPkt → Option GoErr

/-- The link Observer interface (`OnMsg`, `OnAck`, `OnErr`); link messages
are opaque here. -/
structure LinkObserver (α : Type) where
  onMsgCb : α → Option GoErr
  onAckCb : α → Option GoErr

/-- `Client.onPublish` (`src/mqtt/client.go` lines 145-150):
`if c.obs == nil { return nil }; return c.obs.OnPublish(pkt)`.
Returns the error and whether the Observer was invoked. -/
def mqttOnPublish (obs : Option MqttObserver) (pkt : PublishPkt) :
    Option GoErr × Bool :=
  match obs with
  | none => (none, false)
  | some o => (o.onPublishCb pkt, true)

/-- `Client.onPuback` (`src/mqtt/client.go` lines 152-157). -/
def mqttOnPuback (obs : Option MqttObserver) (pkt : PubackPkt) :
    Option GoErr × Bool :=
  match obs with
  | none => (none, false)
  | some o => (o.onPubackCb pkt, true)

/-- `Client.onMsg` (`src/link/client.go` lines 138-143). -/
def linkOnMsg {α : Type} (obs : Option (LinkObserver α)) (msg : α) :
    Option GoErr × Bool :=
  match obs with
  | none => (none, false)
  | some o => (o.onMsgCb msg, true)

/-- `Client.onAck` (`src/link/client.go` lines 145-150). -/
def linkOnAck {α : Type} (obs : Option (LinkObserver α)) (msg : α) :
    Option GoErr × Bool :=
  match obs with
  | none => (none, false)
  | some o => (o.onAckCb msg, true)

theorem goSelect_mem {β : Type} {ready : List β} {choice : ℕ} {b : β}
    (h : goSelect ready choice = some b) : b ∈ ready :=
  List.get?_mem h

/-- C1: after `Close()` (the tomb is dying), a `Send` on a client whose
outbound queue has spare capacity can still enqueue the message and return
nil: both `select` cases are ready and Go picks one at random.  This
evaluates `Client.Send` at such a state with the random pick resolved to the
cache case: the message is enqueued and no "client is closed" error is
returned, contradicting the claim. -/
theorem send_after_close_can_enqueue :
    clientSend { queue := [], cap := 1, dying := true } (42 : ℕ) 0
      = some (SendResult.ok, { queue := [42], cap := 1, dying := true }) := by
  rfl

/-- C5: a `SendContext` whose context is already cancelled or expired while
the outbound queue is full (and the client is not closing, so only the
`<-ctx.Done()` case of the `select` is ready) returns the context's error
without blocking — the result is `some`, not the blocking `none` — and
leaves the queue unchanged: the message is not enqueued. -/
theorem sendContext_cancelled_full_queue {α : Type} (s : ClientState α)
    (m : α) (choice : ℕ) (hfull : s.cap ≤ s.queue.length)
    (halive : s.dying = false) :
    clientSendContext s m true choice = some (SendCtxResult.ctxErr, s) := by
  unfold clientSendContext goSelect
  rw [if_neg (by omega), if_pos rfl, if_neg (by simp [halive])]
  simp [Nat.mod_one]

/-- Witness for `sendContext_cancelled_full_queue` at a concrete full
queue. -/
theorem sendContext_cancelled_full_queue_witness :
    clientSendContext { queue := [5], cap := 1, dying := false } (7 : ℕ)
        true 3
      = some (SendCtxResult.ctxErr, { queue := [5], cap := 1, dying := false }) :=
  sendContext_cancelled_full_queue _ _ 3 (by decide) rfl

/-- The configuration of the design document's backoff scenario:
`min=1s, max=10s, factor=1.6` (the supervisor hard-codes min 1s and factor
1.6; the maximum 10s is the configured `Interval`). -/
def cfgScenario : ClientConfig :=
  { address := "broker", bufferSize := 10, interval := 10,
    backoffMin := 1, backoffFactor := 8 / 5 }

/-- A configuration whose spec-level backoff minimum (2s) and factor (3)
differ from the supervisor's hard-coded constants. -/
def cfgOther : ClientConfig :=
  { address := "broker", bufferSize := 10, interval := 10,
    backoffMin := 2, backoffFactor := 3 }

/-- C8 counterexample: the supervisor's backoff state does not use the
configured backoff minimum or factor — for a configuration asking for
minimum 2s and factor 3 it still uses the hard-coded 1s and 1.6. -/
theorem supervisor_backoff_ignores_min_factor :
    ¬ ((mkSupervisorBackoff cfgOther).min = cfgOther.backoffMin ∧
        (mkSupervisorBackoff cfgOther).factor = cfgOther.backoffFactor) := by
  decide

/-- C8 amended: only the maximum backoff delay is taken from the
configuration (the `Interval` option); the minimum is the constant one
second and the growth factor the constant 1.6, whatever the configuration —
two configurations agreeing on `Interval` yield identical supervisor
backoff states. -/
theorem supervisor_backoff_only_max_from_config :
    ∀ (cc cc' : ClientConfig), cc.interval = cc'.interval →
      mkSupervisorBackoff cc = mkSupervisorBackoff cc' ∧
        (mkSupervisorBackoff cc).max = cc.interval ∧
        (mkSupervisorBackoff cc).min = 1 ∧
        (mkSupervisorBackoff cc).factor = 8 / 5 := by
  intro cc cc' h
  simp [mkSupervisorBackoff, h]

/-- Witness for `supervisor_backoff_only_max_from_config` at two concrete
configurations sharing `Interval`. -/
theorem supervisor_backoff_only_max_from_config_witness :
    mkSupervisorBackoff cfgScenario = mkSupervisorBackoff cfgOther ∧
      (mkSupervisorBackoff cfgScenario).max = cfgScenario.interval ∧
      (mkSupervisorBackoff cfgScenario).min = 1 ∧
      (mkSupervisorBackoff cfgScenario).factor = 8 / 5 :=
  supervisor_backoff_only_max_from_config cfgScenario cfgOther rfl

/-- C9: `Client.Publish` gives the enqueued publish packet a fresh ID from
the client's counter exactly when the QoS is non-zero and the caller-supplied
packet ID is zero; in every other case the packet carries the caller's ID
and the counter is untouched.  QoS, topic, payload, retain and dup are
copied unchanged in both cases. -/
theorem publish_id_assignment (qos : ℕ) (topic : String) (payload : List ℕ)
    (pid : ℕ) (retain dup : Bool) (ids : ℕ) :
    (qos ≠ 0 → pid = 0 →
        clientPublish qos topic payload pid retain dup ids
          = ({ id := (nextID ids).1, dup := dup, qos := qos, topic := topic,
               payload := payload, retain := retain }, (nextID ids).2)) ∧
      (qos = 0 ∨ pid ≠ 0 →
        clientPublish qos topic payload pid retain dup ids
          = ({ id := pid, dup := dup, qos := qos, topic := topic,
               payload := payload, retain := retain }, ids)) := by
  constructor
  · intro hq hp
    simp [clientPublish, hq, hp]
  · intro h
    have : ¬ (qos ≠ 0 ∧ pid = 0) := by tauto
    simp only [clientPublish, if_neg this]

/-- Witness for `publish_id_assignment`: a QoS-1 publish with pid 0 draws
ID 4 from a counter at 3. -/
theorem publish_id_assignment_witness :
    clientPublish 1 "t" [9] 0 false false 3
      = ({ id := 4, dup := false, qos := 1, topic := "t",
           payload := [9], retain := false }, 4) :=
  (publish_id_assignment 1 "t" [9] 0 false false 3).1 (by decide) rfl

/-- C10: every observer dispatch helper is nil-safe: with no Observer,
`onMsg`/`onAck` (link) and `onPublish`/`onPuback` (mqtt) return a nil error
without invoking anything, and `onErr`/`onError` never invoke the Observer's
error callback when the Observer is nil or the error is nil. -/
theorem observer_dispatch_nil_safe :
    (∀ (α : Type) (m : α),
        linkOnMsg none m = (none, false) ∧ linkOnAck none m = (none, false)) ∧
      (∀ (p : PublishPkt), mqttOnPublish none p = (none, false)) ∧
      (∀ (p : PubackPkt), mqttOnPuback none p = (none, false)) ∧
      (∀ (e : Option GoErr), onErrorInvokes false e = false) ∧
      (∀ (b : Bool), onErrorInvokes b none = false) := by
  refine ⟨fun α m => ⟨rfl, rfl⟩, fun p => rfl, fun p => rfl, fun e => ?_, fun b => ?_⟩
  · simp [onErrorInvokes]
  · simp [onErrorInvokes]

theorem attemptAfter_append (t l : List ConnectOutcome) :
    attemptAfter (t ++ l) = l.foldl attemptStep (attemptAfter t) := by
  simp [attemptAfter, List.foldl_append]

theorem foldl_attemptStep_le (fails : List ConnectOutcome)
    (h : ∀ o ∈ fails, o ≠ ConnectOutcome.success) :
    ∀ a : ℕ, a ≤ fails.foldl attemptStep a := by
  induction fails with
  | nil => intro a; simp
  | cons o rest ih =>
    intro a
    cases o with
    | failure e =>
      have := ih (fun o ho => h o (List.mem_cons_of_mem _ ho)) (a + 1)
      calc a ≤ a + 1 := Nat.le_succ a
        _ ≤ rest.foldl attemptStep (a + 1) := this
        _ = (ConnectOutcome.failure e :: rest).foldl attemptStep a := rfl
    | success => exact absurd rfl (h _ (List.mem_cons_self _ _))

/-- C3: along any sequence of connect outcomes, the backoff attempt counter
never decreases while the attempts keep failing (each failure increments
it), and it becomes zero only immediately after a successful connect
attempt (which resets it). -/
theorem backoff_attempt_monotone :
    (∀ (t fails : List ConnectOutcome),
        (∀ o ∈ fails, o ≠ ConnectOutcome.success) →
        attemptAfter t ≤ attemptAfter (t ++ fails)) ∧
      (∀ (t : List ConnectOutcome) (e : GoErr),
        attemptAfter (t ++ [ConnectOutcome.failure e]) = attemptAfter t + 1) ∧
      (∀ (t : List ConnectOutcome),
        attemptAfter (t ++ [ConnectOutcome.success]) = 0) ∧
      (∀ (t : List ConnectOutcome) (o : ConnectOutcome),
        attemptAfter (t ++ [o]) = 0 → o = ConnectOutcome.success) := by
  refine ⟨?_, ?_, ?_, ?_⟩
  · intro t fails h
    rw [attemptAfter_append]
    exact foldl_attemptStep_le fails h _
  · intro t e
    rw [attemptAfter_append]
    rfl
  · intro t
    rw [attemptAfter_append]
    rfl
  · intro t o h
    cases o with
    | failure e =>
      rw [attemptAfter_append] at h
      exact absurd h (Nat.succ_ne_zero _)
    | success => rfl

/-- Witness for `backoff_attempt_monotone`: after two failures the counter
is at least the value after one, a third failure makes it 3, a success
zeroes it, and a zero counter implies a success just happened. -/
theorem backoff_attempt_monotone_witness :
    attemptAfter [ConnectOutcome.failure 0]
        ≤ attemptAfter ([ConnectOutcome.failure 0] ++ [ConnectOutcome.failure 1]) ∧
      attemptAfter ([ConnectOutcome.failure 0, ConnectOutcome.failure 1]
          ++ [ConnectOutcome.failure 2])
        = attemptAfter [ConnectOutcome.failure 0, ConnectOutcome.failure 1] + 1 ∧
      attemptAfter ([ConnectOutcome.failure 0] ++ [ConnectOutcome.success]) = 0 ∧
      ConnectOutcome.success = ConnectOutcome.success :=
  ⟨backoff_attempt_monotone.1 [ConnectOutcome.failure 0] [ConnectOutcome.failure 1]
      (by decide),
    backoff_attempt_monotone.2.1 [ConnectOutcome.failure 0, ConnectOutcome.failure 1] 2,
    backoff_attempt_monotone.2.2.1 [ConnectOutcome.failure 0],
    backoff_attempt_monotone.2.2.2 [ConnectOutcome.failure 0] ConnectOutcome.success
      (by decide)⟩

theorem connectingLoop_cons_stop (obs : Bool) (oc : ConnectOutcome)
    (rest : List (Bool × ConnectOutcome)) :
    connectingLoop obs ((true, oc) :: rest) = (LoopStatus.stopped, []) := rfl

theorem connectingLoop_cons_fail (obs : Bool) (e : GoErr)
    (rest : List (Bool × ConnectOutcome)) :
    connectingLoop obs ((false, ConnectOutcome.failure e) :: rest)
      = ((connectingLoop obs rest).1,
          onErrorInvokes obs (some e) :: (connectingLoop obs rest).2) := rfl

theorem connectingLoop_cons_success (obs : Bool)
    (rest : List (Bool × ConnectOutcome)) :
    connectingLoop obs ((false, ConnectOutcome.success) :: rest)
      = connectingLoop obs rest := rfl

theorem connectingLoop_stopped_iff (obs : Bool) :
    ∀ (sched : List (Bool × ConnectOutcome)),
      (connectingLoop obs sched).1 = LoopStatus.stopped ↔
        sched.any (fun p => p.1) = true
  | [] => by simp [connectingLoop]
  | (stop, oc) :: rest => by
    cases stop with
    | true => simp [connectingLoop_cons_stop]
    | false =>
      cases oc with
      | failure e =>
        rw [connectingLoop_cons_fail]
        simpa using connectingLoop_stopped_iff obs rest
      | success =>
        rw [connectingLoop_cons_success]
        simpa using connectingLoop_stopped_iff obs rest

theorem connectingLoop_notify (obs : Bool) :
    ∀ (sched : List (Bool × ConnectOutcome)) (b : Bool),
      b ∈ (connectingLoop obs sched).2 → b = obs
  | [] => by simp [connectingLoop]
  | (stop, oc) :: rest => by
    cases stop with
    | true => simp [connectingLoop_cons_stop]
    | false =>
      cases oc with
      | failure e =>
        intro b hb
        rw [connectingLoop_cons_fail] at hb
        rcases List.mem_cons.1 hb with rfl | hb
        · cases obs <;> simp [onErrorInvokes]
        · exact connectingLoop_notify obs rest b hb
      | success =>
        intro b hb
        rw [connectingLoop_cons_success] at hb
        exact connectingLoop_notify obs rest b hb

/-- C7: the supervisor loop terminates exactly when the stop signal fires
somewhere in the schedule (a failed connect never terminates it — the loop
proceeds to the next retry), and every failed connect attempt reports to
the Observer exactly when an Observer is present (the error of a failed
attempt being non-nil). -/
theorem connecting_retries_until_stop :
    (∀ (obs : Bool) (sched : List (Bool × ConnectOutcome)),
        (connectingLoop obs sched).1 = LoopStatus.stopped ↔
          sched.any (fun p => p.1) = true) ∧
      (∀ (obs : Bool) (sched : List (Bool × ConnectOutcome)) (b : Bool),
        b ∈ (connectingLoop obs sched).2 → b = obs) ∧
      (∀ (obs : Bool) (e : GoErr), onErrorInvokes obs (some e) = obs) := by
  refine ⟨connectingLoop_stopped_iff, connectingLoop_notify, ?_⟩
  intro obs e
  cases obs <;> simp [onErrorInvokes]

/-- Witness for `connecting_retries_until_stop`: a schedule of two failures
and no stop leaves the loop running with the Observer notified, and the
notification record of that run contains only `true`. -/
theorem connecting_retries_until_stop_witness :
    ((connectingLoop true
          [(false, ConnectOutcome.failure 4), (false, ConnectOutcome.failure 5)]).1
        = LoopStatus.stopped ↔
      ([(false, ConnectOutcome.failure 4),
          (false, ConnectOutcome.failure 5)].any (fun p => p.1) = true)) ∧
      true = true ∧
      onErrorInvokes true (some 4) = true :=
  ⟨connecting_retries_until_stop.1 true _,
    connecting_retries_until_stop.2.1 true
      [(false, ConnectOutcome.failure 4), (false, ConnectOutcome.failure 5)] true
      (by decide),
    connecting_retries_until_stop.2.2 true 4⟩

theorem sendLoop_none_delivered_isPrefix {α : Type} :
    ∀ (j : ℕ) (q : List α), (sendLoop j none q).1 <+: q
  | 0, [] => by simp [sendLoop, nextMsg]
  | 0, m :: q => by simp [sendLoop, nextMsg]
  | j + 1, [] => by simp [sendLoop, nextMsg]
  | j + 1, m :: q => by
    have ih := sendLoop_none_delivered_isPrefix j q
    simpa [sendLoop, nextMsg] using ih

/-- C4: when a session dies with message `m` in flight (`sendLoop` returned
`some m` as the undelivered current message), the supervisor hands `m` to
the next session, whose send loop takes `m` before touching the queue:
with zero successful writes `m` simply stays in flight, and with at least
one successful write the next session's wire order is `m` first, followed
by messages drawn in FIFO order from its queue (a prefix of that queue). -/
theorem inflight_redelivered_first {α : Type} (k : ℕ) (curr : Option α)
    (q d r : List α) (m : α)
    ( _hfail : sendLoop k curr q = (d, some m, r)) :
    ∀ (q2 : List α) (j : ℕ),
      sendLoop 0 (some m) q2 = ([], some m, q2) ∧
        (sendLoop (j + 1) (some m) q2).1 = m :: (sendLoop j none q2).1 ∧
        (sendLoop j none q2).1 <+: q2 := by
  intro q2 j
  exact ⟨rfl, rfl, sendLoop_none_delivered_isPrefix j q2⟩

/-- Witness for `inflight_redelivered_first`: the session `sendLoop 0 none
[5]` dies with 5 in flight; the next session with queue `[7, 8]` and two
successful writes delivers 5 first. -/
theorem inflight_redelivered_first_witness :
    sendLoop 0 (none : Option ℕ) [5] = ([], some 5, []) ∧
      (sendLoop 0 (some 5) [7, 8] = ([], some 5, [7, 8]) ∧
        (sendLoop 2 (some 5) [7, 8]).1 = 5 :: (sendLoop 1 none [7, 8]).1 ∧
        (sendLoop 1 none [7, 8]).1 <+: [7, 8]) :=
  ⟨by decide,
    inflight_redelivered_first 0 none [5] [] [] 5 (by decide) [7, 8] 1⟩

theorem clientSend_some_cases {α : Type} {s : ClientState α} {m : α}
    {choice : ℕ} {res : SendResult} {s' : ClientState α}
    (h : clientSend s m choice = some (res, s')) :
    (s.queue.length < s.cap ∧ s' = { s with queue := s.queue ++ [m] })
      ∨ s' = s := by
  have hm := goSelect_mem h
  rcases List.mem_append.1 hm with h1 | h2
  · by_cases hc : s.queue.length < s.cap
    · rw [if_pos hc] at h1
      simp only [List.mem_singleton, Prod.mk.injEq] at h1
      exact Or.inl ⟨hc, h1.2⟩
    · rw [if_neg hc] at h1
      simp at h1
  · by_cases hd : s.dying = true
    · rw [if_pos hd] at h2
      simp only [List.mem_singleton, Prod.mk.injEq] at h2
      exact Or.inr h2.2
    · rw [if_neg hd] at h2
      simp at h2

theorem clientSendContext_some_cases {α : Type} {s : ClientState α} {m : α}
    {ctxDone : Bool} {choice : ℕ} {res : SendCtxResult} {s' : ClientState α}
    (h : clientSendContext s m ctxDone choice = some (res, s')) :
    (s.queue.length < s.cap ∧ s' = { s with queue := s.queue ++ [m] })
      ∨ s' = s := by
  have hm := goSelect_mem h
  rcases List.mem_append.1 hm with h1 | h2
  · rcases List.mem_append.1 h1 with h3 | h4
    · by_cases hc : s.queue.length < s.cap
      · rw [if_pos hc] at h3
        simp only [List.mem_singleton, Prod.mk.injEq] at h3
        exact Or.inl ⟨hc, h3.2⟩
      · rw [if_neg hc] at h3
        simp at h3
    · by_cases hd : ctxDone = true
      · rw [if_pos hd] at h4
        simp only [List.mem_singleton, Prod.mk.injEq] at h4
        exact Or.inr h4.2
      · rw [if_neg hd] at h4
        simp at h4
  · by_cases hd : s.dying = true
    · rw [if_pos hd] at h2
      simp only [List.mem_singleton, Prod.mk.injEq] at h2
      exact Or.inr h2.2
    · rw [if_neg hd] at h2
      simp at h2

theorem clientStep_cap_eq {α : Type} (s : ClientState α) (op : ClientOp α) :
    (clientStep s op).cap = s.cap := by
  cases op with
  | send m choice =>
    rcases hc : clientSend s m choice with _ | ⟨res, s'⟩
    · simp [clientStep, hc]
    · rcases clientSend_some_cases hc with ⟨_, rfl⟩ | rfl <;> simp [clientStep, hc]
  | sendCtx m ctxDone choice =>
    rcases hc : clientSendContext s m ctxDone choice with _ | ⟨res, s'⟩
    · simp [clientStep, hc]
    · rcases clientSendContext_some_cases hc with ⟨_, rfl⟩ | rfl <;>
        simp [clientStep, hc]
  | deq => rfl
  | close => rfl

theorem clientStep_len_le {α : Type} (s : ClientState α) (op : ClientOp α)
    (h : s.queue.length ≤ s.cap) :
    (clientStep s op).queue.length ≤ s.cap := by
  cases op with
  | send m choice =>
    rcases hc : clientSend s m choice with _ | ⟨res, s'⟩
    · simpa [clientStep, hc] using h
    · rcases clientSend_some_cases hc with ⟨hlt, rfl⟩ | rfl <;>
        simp [clientStep, hc]
      · omega
      · exact h
  | sendCtx m ctxDone choice =>
    rcases hc : clientSendContext s m ctxDone choice with _ | ⟨res, s'⟩
    · simpa [clientStep, hc] using h
    · rcases clientSendContext_some_cases hc with ⟨hlt, rfl⟩ | rfl <;>
        simp [clientStep, hc]
      · omega
      · exact h
  | deq =>
    simp only [clientStep, List.length_tail]
    omega
  | close => exact h

theorem clientRun_inv {α : Type} (ops : List (ClientOp α)) :
    ∀ s : ClientState α, s.queue.length ≤ s.cap →
      (ops.foldl clientStep s).cap = s.cap ∧
        (ops.foldl clientStep s).queue.length ≤ s.cap := by
  induction ops with
  | nil => intro s h; exact ⟨rfl, h⟩
  | cons op rest ih =>
    intro s h
    have h1 := clientStep_cap_eq s op
    have h2 := clientStep_len_le s op h
    have h3 := ih (clientStep s op) (by rw [h1]; exact h2)
    rw [List.foldl_cons]
    exact ⟨h3.1.trans h1, by rw [← h1]; exact h3.2⟩

/-- C6: the outbound queue's capacity is fixed at construction from the
configuration and, along any sequence of lifetime operations, the number of
buffered messages never exceeds it; moreover a `Send` while the queue is
full (and the client not closing) has no ready `select` case, i.e. it
blocks rather than overflowing. -/
theorem queue_never_overflows {α : Type} (cc : ClientConfig)
    (ops : List (ClientOp α)) :
    ((clientRun cc ops).cap = cc.bufferSize ∧
        (clientRun cc ops).queue.length ≤ cc.bufferSize) ∧
      ∀ (s : ClientState α) (m : α) (choice : ℕ),
        s.cap ≤ s.queue.length → s.dying = false →
        clientSend s m choice = none := by
  constructor
  · have := clientRun_inv ops (newClient α cc) (by simp [newClient])
    simpa [clientRun, newClient] using this
  · intro s m choice hfull halive
    unfold clientSend goSelect
    rw [if_neg (by omega), if_neg (by simp [halive])]
    rfl

/-- Witness for `queue_never_overflows`: a concrete run, and a blocked
`Send` on a concrete full queue of a live client. -/
theorem queue_never_overflows_witness :
    clientSend { queue := [3], cap := 1, dying := false } (9 : ℕ) 0 = none :=
  (queue_never_overflows cfgScenario ([] : List (ClientOp ℕ))).2
    { queue := [3], cap := 1, dying := false } 9 0 (by decide) rfl

/-- C2: the backoff delay the supervisor draws for attempt `n` equals
`min(maximum, minimum × factor^n)` (with the supervisor's minimum of one
second, factor 1.6 and configured maximum), and in the design document's
scenario (min 1s, max 10s, factor 1.6) five consecutive connect failures
produce the delays 1, 1.6, 2.56, 4.096, 6.5536 seconds — 1, 1.6, 2.56,
4.1, 6.55 after rounding to two decimals — each capped at 10 seconds. -/
theorem backoff_delay_formula :
    (∀ (cc : ClientConfig) (n : ℕ), 1 < cc.interval →
        (mkSupervisorBackoff cc).forAttempt n
          = min cc.interval (1 * (8 / 5 : ℚ) ^ n)) ∧
      backoffDelays (mkSupervisorBackoff cfgScenario) 5
          = [1, 8 / 5, 64 / 25, 512 / 125, 4096 / 625] ∧
      (backoffDelays (mkSupervisorBackoff cfgScenario) 5).map round2
          = [1, 8 / 5, 64 / 25, 41 / 10, 131 / 20] ∧
      (∀ d ∈ backoffDelays (mkSupervisorBackoff cfgScenario) 5, d ≤ 10) := by
  have hdelays : backoffDelays (mkSupervisorBackoff cfgScenario) 5
      = [1, 8 / 5, 64 / 25, 512 / 125, 4096 / 625] := by
    norm_num [backoffDelays, Backoff.duration, Backoff.forAttempt,
      mkSupervisorBackoff, cfgScenario]
  refine ⟨?_, hdelays, ?_, ?_⟩
  · intro cc n h
    have hp : (1 : ℚ) ≤ (8 / 5 : ℚ) ^ n := one_le_pow₀ (by norm_num)
    have h0 : ¬ (cc.interval ≤ 0) := by linarith
    have h1 : ¬ (cc.interval ≤ 1) := by linarith
    simp only [mkSupervisorBackoff, Backoff.forAttempt]
    norm_num [h0, h1, hp.not_lt]
    split_ifs with h3
    · exact (inf_eq_left.2 h3.le).symm
    · exact (inf_eq_right.2 (not_lt.1 h3)).symm
  · rw [hdelays]
    norm_num [round2, round_eq]
  · rw [hdelays]
    norm_num

/-- Witness for `backoff_delay_formula`: the fourth delay of the scenario
configuration matches the formula. -/
theorem backoff_delay_formula_witness :
    (mkSupervisorBackoff cfgScenario).forAttempt 3
      = min cfgScenario.interval (1 * (8 / 5 : ℚ) ^ 3) :=
  backoff_delay_formula.1 cfgScenario 3 (by norm_num [cfgScenario])
